import Mathlib

/-!
Verification of the OpenFoodFacts local cache (`off_cache/cache_db.py` and the
grade-score helpers of `app.py`) against its natural-language specification.

The embedding models Python values (`PyVal`), the SQLite-backed store
(`Store`), and each store operation as a pure Lean function translated from
the source.  Floating point numbers are modelled as rationals (`Rat`);
machine-level float behaviour (NaN, rounding) is outside the model and no
claim depends on it.  Python exceptions that the source catches locally are
modelled by `Option`/`Except` results.
-/

namespace OffCache

/-- Python values as they occur in the product records handled by
`cache_db.py`: the JSON-serialisable fragment of Python's data model.
`float` is modelled as a rational number. -/
inductive PyVal where
  | none
  | bool (b : Bool)
  | int (n : Int)
  | float (q : Rat)
  | str (s : String)
  | list (xs : List PyVal)
  | dict (kvs : List (String × PyVal))

/-- A Python dict with string keys, e.g. a decoded JSON object.
Dicts produced by `json.loads` have pairwise-distinct keys. -/
abbrev PyDict := List (String × PyVal)

/-- A raw product record (`Dict[str, Any]` in the source). -/
abbrev RawRec := PyDict

/-- Python truthiness (`bool(v)`), used by the `x or y` idiom in the source. -/
def truthy : PyVal → Bool
  | .none => false
  | .bool b => b
  | .int n => decide (n ≠ 0)
  | .float q => decide (q ≠ 0)
  | .str s => decide (s ≠ "")
  | .list xs => !xs.isEmpty
  | .dict kvs => !kvs.isEmpty

/-- Python's `a or b`: `b` when `a` is falsy, else `a`. -/
def pyOr (a b : PyVal) : PyVal := if truthy a then a else b

/-- Python's `str.strip()` with no argument: remove leading and trailing
whitespace. -/
def pyStrip (s : String) : String :=
  String.mk (((s.data.dropWhile Char.isWhitespace).reverse.dropWhile
    Char.isWhitespace).reverse)

/-- Python's `str.upper()` (the source only feeds it ASCII grade letters). -/
def pyUpper (s : String) : String := String.mk (s.data.map Char.toUpper)

/-- Numeric value of a list of decimal digit characters. -/
def digitsToNat (ds : List Char) : Nat :=
  ds.foldl (fun a c => a * 10 + (c.toNat - 48)) 0

/-- Python's `float(s)` on a string, for the plain decimal forms
(optional sign, digits, optional fractional part).  Python additionally
accepts exponent/infinity/NaN spellings; no claim depends on those, and a
string outside the modelled forms yields `none` (a raised `ValueError`). -/
def pyParseFloat? (s : String) : Option Rat :=
  let t := (pyStrip s).data
  let sign : Rat := match t with
    | '-' :: _ => -1
    | _ => 1
  let body := match t with
    | '-' :: r => r
    | '+' :: r => r
    | r => r
  let ip := body.takeWhile Char.isDigit
  let rest := body.dropWhile Char.isDigit
  match rest with
  | [] => if ip.isEmpty then Option.none else some (sign * (digitsToNat ip : Nat))
  | '.' :: fp =>
    if fp.all Char.isDigit && !(ip.isEmpty && fp.isEmpty) then
      some (sign * ((digitsToNat ip : Rat) +
        (digitsToNat fp : Rat) / ((10 : Rat) ^ fp.length)))
    else Option.none
  | _ => Option.none

/-- Python's `int(s)` on a string: optional sign and decimal digits only
(`int("3.5")` raises, hence `none`). -/
def pyParseInt? (s : String) : Option Int :=
  let t := (pyStrip s).data
  let sign : Int := match t with
    | '-' :: _ => -1
    | _ => 1
  let body := match t with
    | '-' :: r => r
    | '+' :: r => r
    | r => r
  if body.isEmpty || !body.all Char.isDigit then Option.none
  else some (sign * (digitsToNat body : Int))

/-- Python's `int()` truncates a float toward zero. -/
def ratTrunc (q : Rat) : Int := if 0 ≤ q then q.floor else q.ceil

/-- Python's `float(v)`: `none` models a raised `TypeError`/`ValueError`
(always caught locally by the callers in the source). -/
def pyFloat? : PyVal → Option Rat
  | .bool b => some (if b then 1 else 0)
  | .int n => some (n : Rat)
  | .float q => some q
  | .str s => pyParseFloat? s
  | _ => Option.none

/-- Python's `int(v)` on a value, `none` for a raised error. -/
def pyInt? : PyVal → Option Int
  | .bool b => some (if b then 1 else 0)
  | .int n => some n
  | .float q => some (ratTrunc q)
  | .str s => pyParseInt? s
  | _ => Option.none

/-- Python's `str(v)`.  The exact text of `str()` on floats, lists and dicts
is modelled loosely (no claim depends on it); strings, ints, bools and
`None` are modelled exactly. -/
def pyStr : PyVal → String
  | .none => "None"
  | .bool b => if b then "True" else "False"
  | .int n => toString n
  | .float q => toString q
  | .str s => s
  | .list _ => "<list>"
  | .dict _ => "<dict>"

/-- `cache_db._safe_text`: `""` for `None`, else `str(v)`. -/
def _safe_text : PyVal → String
  | .none => ""
  | v => pyStr v

/-- `cache_db._safe_int`: `None` for `None`/`""`, else `int(v)` with every
exception mapped to `None`. -/
def _safe_int : PyVal → Option Int
  | .none => Option.none
  | .str s => if s = "" then Option.none else pyParseInt? s
  | .bool b => some (if b then 1 else 0)
  | .int n => some n
  | .float q => some (ratTrunc q)
  | _ => Option.none

/-- Python's `d.get(k)` on a string-keyed dict, `none` when the key is
missing. -/
def dictGet (kvs : PyDict) (k : String) : Option PyVal :=
  (kvs.find? (fun kv => kv.1 == k)).map (fun kv => kv.2)

/-- `p.get(k)` on a raw record: missing keys read as Python `None`. -/
def recGet (p : RawRec) (k : String) : PyVal := (dictGet p k).getD .none

/-- A TEXT column holding a JSON blob, as read back by the extractors.
`null` is SQL NULL or the empty string (falsy in Python, handled by the
`json.loads(row) if row else` branch); `malformed` is non-empty text
rejected by `json.loads`; `json v` is text that decodes to the value `v`
(for rows written by `upsert_products` it is `json.dumps v`). -/
inductive Blob where
  | null
  | malformed
  | json (v : PyVal)

/-- `nutr_value` from `cache_db.read_products_dataframe` (the same local
function is repeated verbatim in `read_consumed_items_today` and
`read_consumed_items_since`): parse the blob, read `key`, coerce to float;
any exception and any missing value yield `None`.  The Lean function is
total: the blanket `except Exception` of the source is the `none` result. -/
def nutr_value (row : Blob) (key : String) : Option Rat :=
  match row with
  | .null => Option.none
  | .malformed => Option.none
  | .json v =>
    match v with
    | .dict kvs =>
      match dictGet kvs key with
      | Option.none => Option.none
      | some .none => Option.none
      | some w => pyFloat? w
    | _ => Option.none

/-- `carbon_from_ecoscore` from `cache_db.read_products_dataframe`:
`obj.get("agribalyse", ...).get("co2_total")`, converted from kg CO2e per kg
to g CO2e per 100g by multiplying with 100.  Any exception yields `None`. -/
def carbon_from_ecoscore (row : Blob) : Option Rat :=
  match row with
  | .null => Option.none
  | .malformed => Option.none
  | .json v =>
    match v with
    | .dict kvs =>
      match dictGet kvs "agribalyse" with
      | Option.none => Option.none
      | some (.dict kvs2) =>
        match dictGet kvs2 "co2_total" with
        | Option.none => Option.none
        | some .none => Option.none
        | some w => (pyFloat? w).map (fun c => c * 100)
      | some _ => Option.none
    | _ => Option.none

/-- The carbon-footprint column of `read_products_dataframe` (and of the two
meal readers): the direct nutriment key wins; rows where it is NaN/None are
filled from the ecoscore blob (`df.loc[... .isna()] = carbon_eco`). -/
def carbon_footprint (nutriments_json ecoscore_data_json : Blob) : Option Rat :=
  match nutr_value nutriments_json "carbon-footprint_100g" with
  | some v => some v
  | Option.none => carbon_from_ecoscore ecoscore_data_json

/-- A row of the `products` table (`code TEXT PRIMARY KEY`, scalar columns,
three JSON TEXT blobs). -/
structure Row where
  code : String
  last_modified_t : Option Int
  product_name : String
  brands : String
  categories : String
  countries : String
  nutriscore_grade : String
  ecoscore_grade : String
  nova_group : Option Int
  ecoscore_data_json : Blob
  nutriments_json : Blob
  raw_json : Blob

/-- A row of the `meals` table.  `created_at_utc` is the creation instant in
UTC seconds since the epoch; the source stores `datetime('now')` text, whose
lexicographic order and `date(...)` projection agree with this model
(the UTC day is `created_at_utc / 86400`). -/
structure Meal where
  id : Nat
  created_at_utc : Nat

/-- A row of the `meal_items` table. -/
structure MealItem where
  meal_id : Nat
  code : String

/-- The persistent SQLite state: the three record sets plus the `meta`
key-value table.  `nextMealId` models the AUTOINCREMENT sequence of
`meals.id`.  Lists keep physical row order. -/
structure Store where
  products : List Row
  meals : List Meal
  meal_items : List MealItem
  nextMealId : Nat
  meta : List (String × String)

/-- The trimmed code of a raw record: `str(p.get("code") or "").strip()`. -/
def codeOf (p : RawRec) : String :=
  pyStrip (pyStr (pyOr (recGet p "code") (.str "")))

/-- The `products` row written for an accepted record: every column is
computed from the incoming payload (`excluded.*` on conflict), so an upsert
replaces all scalar and blob fields.  `json.dumps` on the blobs is modelled
by storing the encoded value itself (`Blob.json`). -/
def rowOf (p : RawRec) : Row :=
  { code := codeOf p
  , last_modified_t := _safe_int (recGet p "last_modified_t")
  , product_name := _safe_text (recGet p "product_name")
  , brands := _safe_text (recGet p "brands")
  , categories := _safe_text (recGet p "categories")
  , countries := _safe_text (recGet p "countries")
  , nutriscore_grade := _safe_text (recGet p "nutriscore_grade")
  , ecoscore_grade := _safe_text (recGet p "ecoscore_grade")
  , nova_group := _safe_int (recGet p "nova_group")
  , ecoscore_data_json := Blob.json (pyOr (recGet p "ecoscore_data") (.dict []))
  , nutriments_json := Blob.json (pyOr (recGet p "nutriments") (.dict []))
  , raw_json := Blob.json (.dict p) }

/-- `INSERT ... ON CONFLICT(code) DO UPDATE`: update the existing row with
that code in place, else append a new row. -/
def putRow (l : List Row) (row : Row) : List Row :=
  if l.any (fun r => r.code == row.code) then
    l.map (fun r => if r.code = row.code then row else r)
  else l ++ [row]

/-- `INSERT OR REPLACE INTO meta(key, value)`. -/
def putMeta (m : List (String × String)) (k v : String) : List (String × String) :=
  if m.any (fun kv => kv.1 == k) then
    m.map (fun kv => if kv.1 = k then (k, v) else kv)
  else m ++ [(k, v)]

/-- One iteration of the loop in `cache_db.upsert_products`: skip records
with a blank code, otherwise insert-or-replace the row keyed on `code`. -/
def upsertStep (st : Store) (p : RawRec) : Store :=
  if codeOf p = "" then st
  else { st with products := putRow st.products (rowOf p) }

/-- `cache_db.upsert_products`: process the batch in order inside one
transaction, then stamp `meta.last_sync_utc` with the current time (`now`
is the `datetime('now')` text).  Returns the count of accepted (non-blank
code) records, as the loop's `rows` counter does. -/
def upsert_products (now : String) (ps : List RawRec) (st : Store) : Store × Nat :=
  let st' := ps.foldl upsertStep st
  ({ st' with meta := putMeta st'.meta "last_sync_utc" now },
   (ps.filter (fun p => codeOf p ≠ "")).length)

/-- Descending `ORDER BY last_modified_t DESC` as SQLite performs it:
NULLs are smallest and therefore sort last in descending order. -/
def lmtDescLe (a b : Option Int) : Prop :=
  match a, b with
  | Option.none, Option.none => True
  | Option.none, some _ => False
  | some _, Option.none => True
  | some x, some y => y ≤ x

instance : DecidableRel lmtDescLe := fun a b => by
  unfold lmtDescLe
  cases a <;> cases b <;> infer_instance

/-- Row comparison used by the reading queries of the products table. -/
def rowDescLe (a b : Row) : Prop := lmtDescLe a.last_modified_t b.last_modified_t

instance : DecidableRel rowDescLe := fun a b => by unfold rowDescLe; infer_instance

instance : IsTotal Row rowDescLe := by
  refine ⟨fun a b => ?_⟩
  unfold rowDescLe lmtDescLe
  rcases a.last_modified_t with _ | x <;> rcases b.last_modified_t with _ | y <;>
    simp [Int.le_total]

instance : IsTrans Row rowDescLe := by
  refine ⟨fun a b c => ?_⟩
  unfold rowDescLe lmtDescLe
  rcases a.last_modified_t with _ | x <;> rcases b.last_modified_t with _ | y <;>
    rcases c.last_modified_t with _ | z <;> simp <;> omega

/-- SQLite's ASCII-only case folding used by `LIKE`. -/
def asciiLower (c : Char) : Char :=
  if 'A' ≤ c ∧ c ≤ 'Z' then Char.ofNat (c.toNat + 32) else c

/-- SQLite `LIKE` pattern matching (no ESCAPE clause): `'%'` matches any
span of characters, `'_'` matches exactly one, any other pattern character
matches ASCII-case-insensitively.  The `'%'` case tries every suffix of the
text, which is the standard backtracking semantics. -/
def likeMatch : List Char → List Char → Bool
  | [], cs => cs.isEmpty
  | p :: ps, cs =>
    if p = '%' then (cs.tails).any (fun d => likeMatch ps d)
    else if p = '_' then
      match cs with
      | [] => false
      | _ :: cs' => likeMatch ps cs'
    else
      match cs with
      | [] => false
      | c :: cs' => (asciiLower p == asciiLower c) && likeMatch ps cs'

/-- `cache_db.search_products_by_name`: blank queries return an empty
result; otherwise `WHERE product_name LIKE '%q%' ORDER BY last_modified_t
DESC LIMIT limit`.  The SQL projects a subset of the columns; the model
returns whole rows, which the claims quantify over. -/
def search_products_by_name (query : String) (limit : Nat) (st : Store) : List Row :=
  let q := pyStrip query
  if q = "" then []
  else
    (List.insertionSort rowDescLe
      (st.products.filter (fun r =>
        likeMatch ('%' :: (q.data ++ ['%'])) r.product_name.data))).take limit

/-- Index of the last occurrence of `c` in `l` (and `0` when absent): the
value of the dict comprehension `order = (code -> index)` built in
`get_products_by_codes`, where later indices overwrite earlier ones. -/
def lastIdxOf : List String → String → Nat
  | [], _ => 0
  | x :: xs, c => if xs.contains c then lastIdxOf xs c + 1 else if x = c then 0 else 0

/-- Sort key relation of `get_products_by_codes`: the `_order` column. -/
def codesOrderLe (cleaned : List String) (a b : Row) : Prop :=
  lastIdxOf cleaned a.code ≤ lastIdxOf cleaned b.code

instance (cleaned : List String) : DecidableRel (codesOrderLe cleaned) :=
  fun a b => by unfold codesOrderLe; infer_instance

instance (cleaned : List String) : IsTotal Row (codesOrderLe cleaned) :=
  ⟨fun a b => Nat.le_total _ _⟩

instance (cleaned : List String) : IsTrans Row (codesOrderLe cleaned) :=
  ⟨fun _ _ _ h1 h2 => Nat.le_trans h1 h2⟩

/-- `cache_db.get_products_by_codes`: trim the input codes, drop blanks,
select the rows whose code is among them, and stably sort the hits by the
input position of their code (pandas `sort_values(by="_order",
kind="stable")`).  The SQL projects a subset of the columns; the model
returns whole rows. -/
def get_products_by_codes (codes : List String) (st : Store) : List Row :=
  let cleaned := (codes.map pyStrip).filter (fun c => c ≠ "")
  if cleaned.isEmpty then []
  else
    List.insertionSort (codesOrderLe cleaned)
      (st.products.filter (fun r => cleaned.contains r.code))

/-- `cache_db.add_meal`: trim the incoming codes and drop blanks; raise
`ValueError("No product codes")` when none are left (the `Except.error`
case: the transaction never starts, so no row is created); else create one
`meals` row stamped `now` and one `meal_items` row per remaining code,
duplicates kept, and return the new meal id (`cur.lastrowid`). -/
def add_meal (now : Nat) (consumed_codes : List String) (st : Store) :
    Except String (Store × Nat) :=
  let codes := (consumed_codes.map pyStrip).filter (fun c => c ≠ "")
  if codes.isEmpty then Except.error "No product codes"
  else
    let meal_id := st.nextMealId
    Except.ok
      ({ st with
          meals := st.meals ++ [⟨meal_id, now⟩]
        , meal_items := st.meal_items ++ codes.map (fun c => ⟨meal_id, c⟩)
        , nextMealId := meal_id + 1 }, meal_id)

/-- `cache_db.delete_meals_today`: select the ids of meals created on the
current UTC day, delete their items and then the meals; returns the number
of meals deleted. -/
def delete_meals_today (now : Nat) (st : Store) : Store × Nat :=
  let meal_ids := (st.meals.filter
    (fun m => m.created_at_utc / 86400 == now / 86400)).map (fun m => m.id)
  if meal_ids.isEmpty then (st, 0)
  else
    ({ st with
        meal_items := st.meal_items.filter (fun mi => !(meal_ids.contains mi.meal_id))
      , meals := st.meals.filter (fun m => !(meal_ids.contains m.id)) },
     meal_ids.length)

/-- `cache_db.delete_all_meals`: count the meals, then clear both tables. -/
def delete_all_meals (st : Store) : Store × Nat :=
  ({ st with meal_items := [], meals := [] }, st.meals.length)

/-- `cache_db.delete_code_from_all_meals`: a blank trimmed code returns `0`
with no change; otherwise delete every `meal_items` row carrying the code
(returning `cur.rowcount`), then delete the meals whose id no longer occurs
in `meal_items` (`id NOT IN (SELECT DISTINCT meal_id FROM meal_items)`). -/
def delete_code_from_all_meals (code : String) (st : Store) : Store × Nat :=
  let c := pyStrip code
  if c = "" then (st, 0)
  else
    let deleted_items := (st.meal_items.filter (fun mi => mi.code == c)).length
    let items' := st.meal_items.filter (fun mi => !(mi.code == c))
    let meals' := st.meals.filter (fun m => items'.any (fun mi => mi.meal_id == m.id))
    ({ st with meal_items := items', meals := meals' }, deleted_items)

/-- A row of the join produced by the meal readers: the selected meal-item
and meal columns, the joined product row, and the carbon-footprint column
appended by the same extraction as in `read_products_dataframe`. -/
structure ConsumedRow where
  meal_id : Nat
  created_at_utc : Nat
  product : Row
  carbon_footprint_gco2e_100g : Option Rat

/-- The SQL join `meal_items JOIN meals ON id = meal_id JOIN products ON
code = item code`, filtered by a predicate on the meal: one output row per
matching (item, meal, product) combination. -/
def consumedJoin (st : Store) (pred : Meal → Bool) : List ConsumedRow :=
  st.meal_items.flatMap (fun mi =>
    (st.meals.filter (fun m => m.id == mi.meal_id && pred m)).flatMap (fun m =>
      (st.products.filter (fun p => p.code == mi.code)).map (fun p =>
        ⟨mi.meal_id, m.created_at_utc,
         p, carbon_footprint p.nutriments_json p.ecoscore_data_json⟩)))

/-- `WHERE date(m.created_at_utc) >= date('now', '-{days} day')`: the meal's
UTC day is at least `days` days before today's UTC day. -/
def sinceFilter (now : Nat) (days : Int) (m : Meal) : Bool :=
  decide (((m.created_at_utc / 86400 : Nat) : Int) ≥ ((now / 86400 : Nat) : Int) - days)

/-- `ORDER BY m.created_at_utc DESC` on the join output. -/
def consumedDescLe (a b : ConsumedRow) : Prop :=
  b.created_at_utc ≤ a.created_at_utc

instance : DecidableRel consumedDescLe :=
  fun a b => by unfold consumedDescLe; infer_instance

instance : IsTotal ConsumedRow consumedDescLe :=
  ⟨fun a b => Nat.le_total _ _⟩

instance : IsTrans ConsumedRow consumedDescLe :=
  ⟨fun _ _ _ h1 h2 => Nat.le_trans h2 h1⟩

/-- `cache_db.read_consumed_items_since`: reject `days < 1` with
`ValueError("days must be >= 1")`, else return the item-meal-product join
restricted to meals created on/after `now - days`, ordered by
`created_at_utc` descending. -/
def read_consumed_items_since (now : Nat) (days : Int) (st : Store) :
    Except String (List ConsumedRow) :=
  if days < 1 then Except.error "days must be >= 1"
  else Except.ok
    (List.insertionSort consumedDescLe (consumedJoin st (sinceFilter now days)))

attribute [ext] Store

/-- The `products` primary-key invariant: stored codes are pairwise
distinct (`code TEXT PRIMARY KEY`); maintained by `upsert_products`. -/
abbrev NodupCodes (st : Store) : Prop :=
  (st.products.map (fun r => r.code)).Nodup

/-- The stored rows carrying a given code. -/
def rowsWith (c : String) (l : List Row) : List Row :=
  l.filter (fun r => r.code == c)

/-- `app._grade_to_score`: `None` for a falsy grade, else look the stripped
upper-cased letter up in the A..E mapping, `None` when unmapped. -/
def _grade_to_score (grade : Option String) : Option Rat :=
  match grade with
  | Option.none => Option.none
  | some s =>
    if s = "" then Option.none
    else
      let g := pyUpper (pyStrip s)
      if g = "A" then some 5
      else if g = "B" then some 4
      else if g = "C" then some 3
      else if g = "D" then some 2
      else if g = "E" then some 1
      else Option.none

/-- The aggregate health/planet score of one row in `app.py`:
`df[...].apply(_grade_to_score).fillna(3.0)` — an absent or unmapped grade
contributes the midpoint 3.0. -/
def grade_score_filled (grade : Option String) : Rat :=
  (_grade_to_score grade).getD 3

/-- `app._score_to_grade`: `float(score)` (any failure yields `"?"`), then
the half-point boundaries 4.5/3.5/2.5/1.5 map the mean score back to a
letter. -/
def _score_to_grade (score_1_to_5 : PyVal) : String :=
  match pyFloat? score_1_to_5 with
  | Option.none => "?"
  | some s =>
    if 4.5 ≤ s then "A"
    else if 3.5 ≤ s then "B"
    else if 2.5 ≤ s then "C"
    else if 1.5 ≤ s then "D"
    else "E"

/-! ## Theorems -/

lemma rat_le_45_46 : (4.5 : Rat) ≤ 4.6 := by norm_num

lemma rat_le_35_35 : (3.5 : Rat) ≤ 3.5 := le_refl _

lemma rat_lt_35_45 : (3.5 : Rat) < 4.5 := by norm_num

lemma rat_fifth_mul_100 : (1 / 5 : Rat) * 100 = 20 := by norm_num

lemma length_filter_le_one_of_nodup_key {α β : Type} [BEq β] [LawfulBEq β]
    (key : α → β) (p : α → Bool) (c : β) (hp : ∀ x, p x = true → key x = c) :
    ∀ l : List α, (l.map key).Nodup → (l.filter p).length ≤ 1
  | [], _ => by simp
  | a :: l, h => by
    rw [List.map_cons, List.nodup_cons] at h
    rcases h with ⟨hna, hnd⟩
    cases hb : p a with
    | false =>
      rw [List.filter_cons_of_neg (by simp [hb])]
      exact length_filter_le_one_of_nodup_key key p c hp l hnd
    | true =>
      have hfl : l.filter p = [] := by
        rw [List.filter_eq_nil_iff]
        intro b hbl hqb
        apply hna
        have : key b = key a := by rw [hp b hqb, hp a hb]
        rw [← this]
        exact List.mem_map_of_mem key hbl
      rw [List.filter_cons_of_pos hb, hfl]
      simp

lemma length_filter_eq_ite {α : Type} (p : α → Bool) (l : List α)
    (hle : (l.filter p).length ≤ 1) :
    (l.filter p).length = if l.any p then 1 else 0 := by
  cases ha : l.any p with
  | true =>
    rcases List.any_eq_true.mp ha with ⟨x, hx, hpx⟩
    have h1 : x ∈ l.filter p := List.mem_filter.mpr ⟨hx, hpx⟩
    have h3 : 0 < (l.filter p).length :=
      List.length_pos.mpr (List.ne_nil_of_mem h1)
    simp only [if_pos]
    omega
  | false =>
    have : l.filter p = [] := by
      rw [List.filter_eq_nil_iff]
      intro b hbl hqb
      rw [List.any_eq_false] at ha
      exact ha b hbl hqb
    simp [this]

lemma codes_putRow_of_any (l : List Row) (row : Row)
    (h : (l.any fun r => r.code == row.code) = true) :
    (putRow l row).map (fun r => r.code) = l.map (fun r => r.code) := by
  unfold putRow
  rw [if_pos h, List.map_map]
  apply List.map_congr_left
  intro r _
  by_cases h' : r.code = row.code <;> simp [Function.comp, h']

lemma rowsWith_putRow_self (l : List Row) (row : Row)
    (h : (l.map fun r => r.code).Nodup) :
    rowsWith row.code (putRow l row) = [row] := by
  unfold putRow rowsWith
  by_cases hany : (l.any fun r => r.code == row.code) = true
  · rw [if_pos hany, List.filter_map]
    have hcong : ((fun r : Row => r.code == row.code) ∘
        fun r => if r.code = row.code then row else r) =
        fun r => r.code == row.code := by
      funext r
      by_cases h' : r.code = row.code <;> simp [Function.comp, h']
    rw [hcong]
    have hle := length_filter_le_one_of_nodup_key (fun r : Row => r.code)
      (fun r => r.code == row.code) row.code (fun x hx => by simpa using hx) l h
    have hlen : (l.filter fun r => r.code == row.code).length = 1 := by
      rcases List.any_eq_true.mp hany with ⟨x, hx, hpx⟩
      have h1 : x ∈ l.filter fun r => r.code == row.code :=
        List.mem_filter.mpr ⟨hx, hpx⟩
      have h3 : 0 < (l.filter fun r => r.code == row.code).length :=
        List.length_pos.mpr (List.ne_nil_of_mem h1)
      omega
    rcases List.length_eq_one.mp hlen with ⟨r0, hr0⟩
    have hr0c : r0.code = row.code := by
      have : r0 ∈ l.filter fun r => r.code == row.code := by simp [hr0]
      simpa using (List.mem_filter.mp this).2
    rw [hr0]
    simp [hr0c]
  · rw [if_neg hany, List.filter_append]
    have h1 : (l.filter fun r => r.code == row.code) = [] := by
      rw [List.filter_eq_nil_iff]
      intro b hbl hqb
      exact hany (List.any_eq_true.mpr ⟨b, hbl, hqb⟩)
    simp [h1]

lemma rowsWith_putRow_other (l : List Row) (row : Row) (c : String)
    (hc : c ≠ row.code) :
    rowsWith c (putRow l row) = rowsWith c l := by
  unfold putRow rowsWith
  by_cases hany : (l.any fun r => r.code == row.code) = true
  · rw [if_pos hany, List.filter_map]
    have hcong : ((fun r : Row => r.code == c) ∘
        fun r => if r.code = row.code then row else r) =
        fun r => r.code == c := by
      funext r
      by_cases h' : r.code = row.code <;> simp [Function.comp, h']
    rw [hcong]
    have : ∀ r ∈ l.filter fun r => r.code == c,
        (if r.code = row.code then row else r) = r := by
      intro r hr
      rcases List.mem_filter.mp hr with ⟨_, hcr⟩
      rw [beq_iff_eq] at hcr
      rw [if_neg]
      rw [hcr]
      exact fun he => hc he
    calc (l.filter fun r => r.code == c).map
          (fun r => if r.code = row.code then row else r)
        = (l.filter fun r => r.code == c).map id := List.map_congr_left this
      _ = l.filter fun r => r.code == c := List.map_id _
  · rw [if_neg hany, List.filter_append]
    have hrc : (row.code == c) = false := by
      rw [beq_eq_false_iff_ne]
      exact fun he => hc he.symm
    simp [hrc]

lemma nodup_putRow (l : List Row) (row : Row)
    (h : (l.map fun r => r.code).Nodup) :
    ((putRow l row).map fun r => r.code).Nodup := by
  by_cases hany : (l.any fun r => r.code == row.code) = true
  · rw [codes_putRow_of_any l row hany]
    exact h
  · unfold putRow
    rw [if_neg hany, List.map_append]
    have hnm : row.code ∉ l.map fun r => r.code := by
      intro hmem
      rcases List.mem_map.mp hmem with ⟨r, hr, he⟩
      exact hany (List.any_eq_true.mpr ⟨r, hr, by simp [he]⟩)
    simp [List.nodup_append, h, hnm]

lemma putRow_idem (l : List Row) (row : Row) :
    putRow (putRow l row) row = putRow l row := by
  unfold putRow
  by_cases hany : (l.any fun r => r.code == row.code) = true
  · rw [if_pos hany]
    have hany2 : ((l.map fun r => if r.code = row.code then row else r).any
        fun r => r.code == row.code) = true := by
      rcases List.any_eq_true.mp hany with ⟨r, hr, hb⟩
      refine List.any_eq_true.mpr ⟨if r.code = row.code then row else r,
        List.mem_map_of_mem _ hr, ?_⟩
      rw [beq_iff_eq] at hb
      simp [hb]
    rw [if_pos hany2, List.map_map]
    apply List.map_congr_left
    intro r _
    by_cases h' : r.code = row.code <;> simp [Function.comp, h']
  · rw [if_neg hany]
    have hany2 : ((l ++ [row]).any fun r => r.code == row.code) = true :=
      List.any_eq_true.mpr ⟨row, by simp, by simp⟩
    rw [if_pos hany2, List.map_append]
    have h1 : (l.map fun r => if r.code = row.code then row else r) = l := by
      have : ∀ r ∈ l, (if r.code = row.code then row else r) = r := by
        intro r hr
        rw [if_neg]
        intro he
        exact hany (List.any_eq_true.mpr ⟨r, hr, by simp [he]⟩)
      calc l.map (fun r => if r.code = row.code then row else r)
          = l.map id := List.map_congr_left this
        _ = l := List.map_id _
    simp [h1]

lemma putMeta_idem (m : List (String × String)) (k v : String) :
    putMeta (putMeta m k v) k v = putMeta m k v := by
  unfold putMeta
  by_cases hany : (m.any fun kv => kv.1 == k) = true
  · rw [if_pos hany]
    have hany2 : ((m.map fun kv => if kv.1 = k then (k, v) else kv).any
        fun kv => kv.1 == k) = true := by
      rcases List.any_eq_true.mp hany with ⟨kv, hkv, hb⟩
      refine List.any_eq_true.mpr ⟨if kv.1 = k then (k, v) else kv,
        List.mem_map_of_mem _ hkv, ?_⟩
      rw [beq_iff_eq] at hb
      simp [hb]
    rw [if_pos hany2, List.map_map]
    apply List.map_congr_left
    intro kv _
    by_cases h' : kv.1 = k <;> simp [Function.comp, h']
  · rw [if_neg hany]
    have hany2 : ((m ++ [(k, v)]).any fun kv => kv.1 == k) = true :=
      List.any_eq_true.mpr ⟨(k, v), by simp, by simp⟩
    rw [if_pos hany2, List.map_append]
    have h1 : (m.map fun kv => if kv.1 = k then (k, v) else kv) = m := by
      have : ∀ kv ∈ m, (if kv.1 = k then (k, v) else kv) = kv := by
        intro kv hkv
        rw [if_neg]
        intro he
        exact hany (List.any_eq_true.mpr ⟨kv, hkv, by simp [he]⟩)
      calc m.map (fun kv => if kv.1 = k then (k, v) else kv)
          = m.map id := List.map_congr_left this
        _ = m := List.map_id _
    simp [h1]

lemma upsertStep_nodup (st : Store) (p : RawRec) (h : NodupCodes st) :
    NodupCodes (upsertStep st p) := by
  unfold upsertStep
  split
  · exact h
  · exact nodup_putRow _ _ h

lemma foldl_upsert_rowsWith (c : String) (hc : c ≠ "") :
    ∀ (ps : List RawRec) (st : Store), NodupCodes st →
    rowsWith c (ps.foldl upsertStep st).products =
      (match ps.reverse.find? (fun p => codeOf p == c) with
        | some r => [rowOf r]
        | Option.none => rowsWith c st.products)
  | [], st, _ => by simp
  | p :: ps, st, h => by
    rw [List.foldl_cons,
      foldl_upsert_rowsWith c hc ps (upsertStep st p) (upsertStep_nodup st p h),
      List.reverse_cons, List.find?_append]
    cases hf : ps.reverse.find? (fun p => codeOf p == c) with
    | some r => simp
    | none =>
      simp only [Option.none_or]
      cases hcp : (codeOf p == c) with
      | true =>
        simp only [List.find?_cons, hcp]
        rw [beq_iff_eq] at hcp
        unfold upsertStep
        rw [if_neg (by rw [hcp]; exact hc)]
        have hcode : c = (rowOf p).code := hcp.symm
        rw [hcode]
        exact rowsWith_putRow_self st.products (rowOf p) h
      | false =>
        simp only [List.find?_cons, hcp, List.find?_nil]
        unfold upsertStep
        split
        · rfl
        · refine rowsWith_putRow_other st.products (rowOf p) c ?_
          intro he
          rw [he] at hcp
          simp [show codeOf p = (rowOf p).code from rfl] at hcp

/-- Claim C1: upsert is insert-or-replace keyed on `code` with
last-write-wins.  For a well-formed record (non-blank code): upserting it
again after upserting it once leaves the whole store unchanged; the batch
`[r, r]` produces the same store as `[r]`; after upserting `[r]` exactly
one row with its code is stored, equal to the row computed from `r`; and
for any batch, the unique stored row under a code is the row of the record
that appeared last in the batch with that code. -/
theorem c1_upsert_last_write_wins (now : String) (r r2 : RawRec) (ps : List RawRec)
    (st : Store) (c : String) (hr : codeOf r ≠ "") (hnd : NodupCodes st) (hc : c ≠ "")
    (hlast : ps.reverse.find? (fun p => codeOf p == c) = some r2) :
    (upsert_products now [r] ((upsert_products now [r] st).1)).1 =
      (upsert_products now [r] st).1
    ∧ (upsert_products now [r, r] st).1 = (upsert_products now [r] st).1
    ∧ rowsWith (codeOf r) ((upsert_products now [r] st).1).products = [rowOf r]
    ∧ rowsWith c ((upsert_products now ps st).1).products = [rowOf r2] := by
  have hstep : ∀ s : Store, upsertStep s r =
      { s with products := putRow s.products (rowOf r) } := by
    intro s
    unfold upsertStep
    rw [if_neg hr]
  refine ⟨?_, ?_, ?_, ?_⟩
  · unfold upsert_products
    simp only [List.foldl_cons, List.foldl_nil, hstep]
    ext <;> simp [putRow_idem, putMeta_idem]
  · unfold upsert_products
    simp only [List.foldl_cons, List.foldl_nil, hstep]
    ext <;> simp [putRow_idem]
  · have := foldl_upsert_rowsWith (codeOf r) hr [r] st hnd
    simp only [List.reverse_cons, List.reverse_nil, List.nil_append,
      List.find?_cons, beq_self_eq_true] at this
    exact this
  · have := foldl_upsert_rowsWith c hc ps st hnd
    rw [hlast] at this
    exact this

/-- Witness for C1 at concrete records: two records with code `"111"` and
`last_modified_t` 100 and 200 in one batch leave exactly the later row; the
batch `[r, r]` equals the batch `[r]`. -/
theorem c1_upsert_last_write_wins_witness :
    rowsWith "111"
      ((upsert_products "T"
        [[("code", .str "111"), ("last_modified_t", .int 100)],
         [("code", .str "111"), ("last_modified_t", .int 200)]]
        (⟨[], [], [], 1, []⟩ : Store)).1).products =
      [rowOf [("code", .str "111"), ("last_modified_t", .int 200)]]
    ∧ (upsert_products "T"
        [[("code", .str "111"), ("last_modified_t", .int 100)],
         [("code", .str "111"), ("last_modified_t", .int 100)]]
        (⟨[], [], [], 1, []⟩ : Store)).1 =
      (upsert_products "T" [[("code", .str "111"), ("last_modified_t", .int 100)]]
        (⟨[], [], [], 1, []⟩ : Store)).1 :=
  ⟨(c1_upsert_last_write_wins "T" [("code", .str "111"), ("last_modified_t", .int 100)]
      [("code", .str "111"), ("last_modified_t", .int 200)]
      [[("code", .str "111"), ("last_modified_t", .int 100)],
       [("code", .str "111"), ("last_modified_t", .int 200)]]
      ⟨[], [], [], 1, []⟩ "111" (by decide) List.nodup_nil (by decide) rfl).2.2.2,
   (c1_upsert_last_write_wins "T" [("code", .str "111"), ("last_modified_t", .int 100)]
      [("code", .str "111"), ("last_modified_t", .int 100)]
      [[("code", .str "111"), ("last_modified_t", .int 100)]]
      ⟨[], [], [], 1, []⟩ "111" (by decide) List.nodup_nil (by decide) rfl).2.1⟩

/-- Claim C10: the three meal-deletion operations never touch the products
table: every product row (all columns, blobs included) survives unchanged,
and the `meta` table is untouched as well — only the meals and meal_items
record sets are modified. -/
theorem c10_meal_deletions_preserve_products (now : Nat) (code : String) (st : Store) :
    (delete_meals_today now st).1.products = st.products
    ∧ (delete_all_meals st).1.products = st.products
    ∧ (delete_code_from_all_meals code st).1.products = st.products
    ∧ (delete_meals_today now st).1.meta = st.meta
    ∧ (delete_all_meals st).1.meta = st.meta
    ∧ (delete_code_from_all_meals code st).1.meta = st.meta := by
  refine ⟨?_, rfl, ?_, ?_, rfl, ?_⟩ <;>
    simp only [delete_meals_today, delete_code_from_all_meals] <;> split <;> rfl

/-- Claim C8: grade scoring and back-mapping.  `_grade_to_score` sends
A=5, B=4, C=3, D=2, E=1 after stripping and upper-casing (so
case-insensitively); an absent (`None`/empty) or unmapped grade yields
`None`, which the aggregate computations fill with the midpoint 3.0
(`.fillna(3.0)` in `app.py`, modelled by `grade_score_filled`); the
mean-score back-mapping `_score_to_grade` returns A for scores `>= 4.5`,
B for `>= 3.5`, C for `>= 2.5`, D for `>= 1.5`, and E otherwise. -/
theorem c8_grade_scoring (s : String) (g : Option String) (v : Rat) :
    (pyUpper (pyStrip s) = "A" → _grade_to_score (some s) = some 5)
    ∧ (pyUpper (pyStrip s) = "B" → _grade_to_score (some s) = some 4)
    ∧ (pyUpper (pyStrip s) = "C" → _grade_to_score (some s) = some 3)
    ∧ (pyUpper (pyStrip s) = "D" → _grade_to_score (some s) = some 2)
    ∧ (pyUpper (pyStrip s) = "E" → _grade_to_score (some s) = some 1)
    ∧ grade_score_filled Option.none = 3
    ∧ (_grade_to_score g = Option.none → grade_score_filled g = 3)
    ∧ (4.5 ≤ v → _score_to_grade (.float v) = "A")
    ∧ (3.5 ≤ v → v < 4.5 → _score_to_grade (.float v) = "B")
    ∧ (2.5 ≤ v → v < 3.5 → _score_to_grade (.float v) = "C")
    ∧ (1.5 ≤ v → v < 2.5 → _score_to_grade (.float v) = "D")
    ∧ (v < 1.5 → _score_to_grade (.float v) = "E") := by
  have hne : ∀ h : pyUpper (pyStrip s) ≠ "", s ≠ "" := by
    intro h he
    rw [he] at h
    exact h rfl
  refine ⟨?_, ?_, ?_, ?_, ?_, rfl, ?_, ?_, ?_, ?_, ?_, ?_⟩
  · intro h
    simp [_grade_to_score, hne (by rw [h]; decide), h]
  · intro h
    simp [_grade_to_score, hne (by rw [h]; decide), h]
  · intro h
    simp [_grade_to_score, hne (by rw [h]; decide), h]
  · intro h
    simp [_grade_to_score, hne (by rw [h]; decide), h]
  · intro h
    simp [_grade_to_score, hne (by rw [h]; decide), h]
  · intro h
    simp [grade_score_filled, h]
  · intro h
    simp only [_score_to_grade, pyFloat?, if_pos h]
  · intro h1 h2
    simp only [_score_to_grade, pyFloat?]
    rw [if_neg (by linarith), if_pos h1]
  · intro h1 h2
    simp only [_score_to_grade, pyFloat?]
    rw [if_neg (by linarith), if_neg (by linarith), if_pos h1]
  · intro h1 h2
    simp only [_score_to_grade, pyFloat?]
    rw [if_neg (by linarith), if_neg (by linarith), if_neg (by linarith), if_pos h1]
  · intro h
    simp only [_score_to_grade, pyFloat?]
    rw [if_neg (by linarith), if_neg (by linarith), if_neg (by linarith),
      if_neg (by linarith)]

/-- Witness for C8 at concrete inputs: lower-case and padded grades map
case-insensitively, the defaults are 3.0, score 4.6 maps to A and the
boundary 3.5 maps (inclusively) to B. -/
theorem c8_grade_scoring_witness :
    _grade_to_score (some "a") = some 5
    ∧ _grade_to_score (some " b ") = some 4
    ∧ grade_score_filled Option.none = 3
    ∧ grade_score_filled (some "zz") = 3
    ∧ _score_to_grade (.float 4.6) = "A"
    ∧ _score_to_grade (.float 3.5) = "B" :=
  ⟨(c8_grade_scoring "a" Option.none 0).1 (by decide),
   (c8_grade_scoring " b " Option.none 0).2.1 (by decide),
   (c8_grade_scoring "" Option.none 0).2.2.2.2.2.1,
   (c8_grade_scoring "" (some "zz") 0).2.2.2.2.2.2.1 rfl,
   (c8_grade_scoring "" Option.none 4.6).2.2.2.2.2.2.2.1 rat_le_45_46,
   (c8_grade_scoring "" Option.none 3.5).2.2.2.2.2.2.2.2.1 rat_le_35_35 rat_lt_35_45⟩

/-- Claim C3: nutrient extraction distinguishes zero from unknown.
For any stored nutriment blob and any key: a value the float coercion
accepts (in particular an explicit 0) extracts to that float; a missing
key, an explicit JSON null, an uncoercible value, a NULL/empty blob or a
malformed blob all extract to `None` — never 0.  `nutr_value` is a total
function, so no error ever reaches the caller. -/
theorem c3_nutr_value_zero_vs_null (kvs : PyDict) (key : String) (w : PyVal) (x : Rat) :
    (dictGet kvs key = some w → pyFloat? w = some x →
      nutr_value (.json (.dict kvs)) key = some x)
    ∧ (dictGet kvs key = Option.none → nutr_value (.json (.dict kvs)) key = Option.none)
    ∧ (dictGet kvs key = some w → pyFloat? w = Option.none →
      nutr_value (.json (.dict kvs)) key = Option.none)
    ∧ nutr_value .malformed key = Option.none
    ∧ nutr_value .null key = Option.none := by
  refine ⟨?_, ?_, ?_, rfl, rfl⟩
  · intro h1 h2
    simp only [nutr_value, h1]
    cases w <;> simp_all [pyFloat?]
  · intro h1
    simp only [nutr_value, h1]
  · intro h1 h2
    simp only [nutr_value, h1]
    cases w <;> simp_all [pyFloat?]

/-- Witness for C3: `sugars_100g` stored as 0 extracts to 0.0; a missing
`salt_100g` key extracts to `None`; an uncoercible `"n/a"` extracts to
`None`. -/
theorem c3_nutr_value_zero_vs_null_witness :
    nutr_value (.json (.dict [("sugars_100g", .int 0)])) "sugars_100g" = some 0
    ∧ nutr_value (.json (.dict [])) "salt_100g" = Option.none
    ∧ nutr_value (.json (.dict [("salt_100g", .str "n/a")])) "salt_100g" = Option.none :=
  ⟨(c3_nutr_value_zero_vs_null [("sugars_100g", .int 0)] "sugars_100g" (.int 0) 0).1 rfl rfl,
   (c3_nutr_value_zero_vs_null [] "salt_100g" .none 0).2.1 rfl,
   (c3_nutr_value_zero_vs_null [("salt_100g", .str "n/a")] "salt_100g"
     (.str "n/a") 0).2.2.1 rfl rfl⟩

/-- Claim C2: carbon-footprint precedence.  A coercible direct
`carbon-footprint_100g` nutriment value wins; otherwise a coercible
`ecoscore_data.agribalyse.co2_total` value `c` (kg CO2e per kg) yields
`c * 100` (g CO2e per 100g); when both paths fail the result is `None`,
never zero (the final conjuncts enumerate the failing ecoscore shapes). -/
theorem c2_carbon_precedence (nb eb : Blob) (v c : Rat) (kvs kvs2 : PyDict) (w : PyVal) :
    (nutr_value nb "carbon-footprint_100g" = some v → carbon_footprint nb eb = some v)
    ∧ (nutr_value nb "carbon-footprint_100g" = Option.none →
        eb = .json (.dict kvs) → dictGet kvs "agribalyse" = some (.dict kvs2) →
        dictGet kvs2 "co2_total" = some w → pyFloat? w = some c →
        carbon_footprint nb eb = some (c * 100))
    ∧ (nutr_value nb "carbon-footprint_100g" = Option.none →
        carbon_from_ecoscore eb = Option.none → carbon_footprint nb eb = Option.none)
    ∧ carbon_from_ecoscore .null = Option.none
    ∧ carbon_from_ecoscore .malformed = Option.none
    ∧ (dictGet kvs "agribalyse" = Option.none →
        carbon_from_ecoscore (.json (.dict kvs)) = Option.none)
    ∧ (dictGet kvs "agribalyse" = some (.dict kvs2) →
        dictGet kvs2 "co2_total" = some w → pyFloat? w = Option.none →
        carbon_from_ecoscore (.json (.dict kvs)) = Option.none) := by
  refine ⟨?_, ?_, ?_, rfl, rfl, ?_, ?_⟩
  · intro h
    simp only [carbon_footprint, h]
  · intro h1 h2 h3 h4 h5
    subst h2
    simp only [carbon_footprint, h1, carbon_from_ecoscore, h3, h4]
    cases w <;> simp_all [pyFloat?]
  · intro h1 h2
    simp only [carbon_footprint, h1, h2]
  · intro h
    simp only [carbon_from_ecoscore, h]
  · intro h1 h2 h3
    simp only [carbon_from_ecoscore, h1, h2]
    cases w <;> simp_all [pyFloat?]

/-- Witness for C2, the spec's own example: a record with both a direct
per-100g value 5.0 and a life-cycle total 0.2 kg/kg extracts 5.0; with only
the life-cycle total it extracts 0.2 × 100 = 20.0. -/
theorem c2_carbon_precedence_witness :
    carbon_footprint (.json (.dict [("carbon-footprint_100g", .float 5)]))
      (.json (.dict [("agribalyse", .dict [("co2_total", .float (1 / 5))])])) = some 5
    ∧ carbon_footprint (.json (.dict []))
      (.json (.dict [("agribalyse", .dict [("co2_total", .float (1 / 5))])])) = some 20 :=
  ⟨(c2_carbon_precedence (.json (.dict [("carbon-footprint_100g", .float 5)]))
      (.json (.dict [("agribalyse", .dict [("co2_total", .float (1 / 5))])]))
      5 (1 / 5) [] [] .none).1 rfl,
   rat_fifth_mul_100 ▸
     (c2_carbon_precedence (.json (.dict []))
       (.json (.dict [("agribalyse", .dict [("co2_total", .float (1 / 5))])]))
       0 (1 / 5) [("agribalyse", .dict [("co2_total", .float (1 / 5))])]
       [("co2_total", .float (1 / 5))] (.float (1 / 5))).2.1 rfl rfl rfl rfl rfl⟩

/-- Claim C5: the empty-selection guard of `add_meal`.  When every input
code trims to blank (including the empty list) the call fails with the
`ValueError` and, the transaction never having started, creates no Meal and
no MealItem row (the `Except.error` result carries no new state).  With at
least one non-blank code it creates exactly one Meal and one MealItem per
non-blank trimmed code — duplicates kept, in order — and returns the new
meal id, leaving products and meta untouched. -/
theorem c5_add_meal_guard (now : Nat) (input : List String) (st : Store) :
    ((∀ c ∈ input, pyStrip c = "") → add_meal now input st = .error "No product codes")
    ∧ ((∃ c ∈ input, pyStrip c ≠ "") →
        ∃ st', add_meal now input st = .ok (st', st.nextMealId)
          ∧ st'.meals = st.meals ++ [⟨st.nextMealId, now⟩]
          ∧ st'.meal_items = st.meal_items ++
              ((input.map pyStrip).filter (fun c => c ≠ "")).map
                (fun c => (⟨st.nextMealId, c⟩ : MealItem))
          ∧ st'.products = st.products
          ∧ st'.meta = st.meta) := by
  constructor
  · intro h
    have he : ((input.map pyStrip).filter (fun c => decide (c ≠ ""))) = [] := by
      rw [List.filter_eq_nil_iff]
      intro a ha
      rcases List.mem_map.mp ha with ⟨c, hc, rfl⟩
      simp [h c hc]
    simpa [add_meal, he] using h
  · rintro ⟨c, hc, hne⟩
    have hmem : pyStrip c ∈ (input.map pyStrip).filter (fun c => decide (c ≠ "")) := by
      rw [List.mem_filter]
      exact ⟨List.mem_map.mpr ⟨c, hc, rfl⟩, by simp [hne]⟩
    have hni : ((input.map pyStrip).filter (fun c => decide (c ≠ ""))).isEmpty = false := by
      rcases hl : (input.map pyStrip).filter (fun c => decide (c ≠ "")) with _ | ⟨a, l⟩
      · rw [hl] at hmem
        cases hmem
      · rfl
    refine ⟨{ st with
        meals := st.meals ++ [⟨st.nextMealId, now⟩]
      , meal_items := st.meal_items ++
          ((input.map pyStrip).filter (fun c => decide (c ≠ ""))).map
            (fun c => ⟨st.nextMealId, c⟩)
      , nextMealId := st.nextMealId + 1 }, ?_, rfl, rfl, rfl, rfl⟩
    simpa [add_meal, hni] using ⟨c, hc, hne⟩

/-- Witness for C5: `add_meal` on `[]` and on `["  "]` fails with the
error; on `[" a ", "b", "a"]` it creates meal 1 with the three trimmed
items (the duplicate kept) and returns id 1. -/
theorem c5_add_meal_guard_witness :
    add_meal 5 [] (⟨[], [], [], 1, []⟩ : Store) = .error "No product codes"
    ∧ add_meal 5 ["  "] (⟨[], [], [], 1, []⟩ : Store) = .error "No product codes"
    ∧ ∃ st', add_meal 5 [" a ", "b", "a"] (⟨[], [], [], 1, []⟩ : Store) = .ok (st', 1)
        ∧ st'.meals = [⟨1, 5⟩]
        ∧ st'.meal_items = [⟨1, "a"⟩, ⟨1, "b"⟩, ⟨1, "a"⟩]
        ∧ st'.products = []
        ∧ st'.meta = [] :=
  ⟨(c5_add_meal_guard 5 [] ⟨[], [], [], 1, []⟩).1 (by decide),
   (c5_add_meal_guard 5 ["  "] ⟨[], [], [], 1, []⟩).1 (by decide),
   (c5_add_meal_guard 5 [" a ", "b", "a"] ⟨[], [], [], 1, []⟩).2 (by decide)⟩

/-- Counterexample to C4 as stated: the claim quantifies over every store
state and every code, but for a blank code `delete_code_from_all_meals`
returns `(st, 0)` before the cascade cleanup runs, so a pre-existing meal
with zero items (meal 1 here) persists after the call. -/
theorem c4_cascade_counterexample :
    (delete_code_from_all_meals "" (⟨[], [⟨1, 0⟩], [], 2, []⟩ : Store)).1.meals = [⟨1, 0⟩]
    ∧ (delete_code_from_all_meals "" (⟨[], [⟨1, 0⟩], [], 2, []⟩ : Store)).1.meal_items = [] :=
  ⟨rfl, rfl⟩

/-- Claim C4 (amended): for every store state and every code that is
non-blank after trimming, `delete_code_from_all_meals` leaves no Meal with
zero MealItems — in particular a meal whose items all carried that code is
gone — and returns the number of MealItem rows removed; for a blank code
it returns 0 and leaves the store unchanged (so only a pre-existing empty
meal can survive, a state the meal API never creates). -/
theorem c4_delete_code_cascade (code : String) (st : Store) :
    (pyStrip code ≠ "" →
      (∀ m ∈ (delete_code_from_all_meals code st).1.meals,
        ∃ mi ∈ (delete_code_from_all_meals code st).1.meal_items, mi.meal_id = m.id)
      ∧ (∀ m ∈ st.meals,
          (∀ mi ∈ st.meal_items, mi.meal_id = m.id → mi.code = pyStrip code) →
          m ∉ (delete_code_from_all_meals code st).1.meals)
      ∧ (delete_code_from_all_meals code st).2 =
          (st.meal_items.filter (fun mi => mi.code == pyStrip code)).length)
    ∧ (pyStrip code = "" → delete_code_from_all_meals code st = (st, 0)) := by
  constructor
  · intro hc
    simp only [delete_code_from_all_meals, if_neg hc]
    refine ⟨?_, ?_, ?_⟩
    · intro m hm
      rcases List.mem_filter.mp hm with ⟨_, hm2⟩
      rcases List.any_eq_true.mp hm2 with ⟨mi, hmi, he⟩
      exact ⟨mi, hmi, by simpa using he⟩
    · intro m _ hall hmem
      rcases List.mem_filter.mp hmem with ⟨_, h2⟩
      rcases List.any_eq_true.mp h2 with ⟨mi, hmi, he⟩
      rcases List.mem_filter.mp hmi with ⟨hmi0, hne⟩
      have hcode : mi.code = pyStrip code := hall mi hmi0 (by simpa using he)
      simp [hcode] at hne
    · trivial
  · intro hc
    simp only [delete_code_from_all_meals]
    rw [if_pos hc]

/-- Witness for the amended C4 at a concrete store: deleting code `"a"`
removes its one item and cascades meal 1 away; the returned count is the
number of items removed. -/
theorem c4_delete_code_cascade_witness :
    (delete_code_from_all_meals "a"
        (⟨[], [⟨1, 10⟩, ⟨2, 20⟩], [⟨1, "a"⟩, ⟨2, "b"⟩], 3, []⟩ : Store)).2 =
      ((⟨[], [⟨1, 10⟩, ⟨2, 20⟩], [⟨1, "a"⟩, ⟨2, "b"⟩], 3, []⟩ : Store).meal_items.filter
        (fun mi => mi.code == pyStrip "a")).length
    ∧ (delete_code_from_all_meals "a"
        (⟨[], [⟨1, 10⟩, ⟨2, 20⟩], [⟨1, "a"⟩, ⟨2, "b"⟩], 3, []⟩ : Store)).1.meals = [⟨2, 20⟩] :=
  ⟨((c4_delete_code_cascade "a" ⟨[], [⟨1, 10⟩, ⟨2, 20⟩], [⟨1, "a"⟩, ⟨2, "b"⟩], 3, []⟩).1
      (by decide)).2.2,
   rfl⟩

lemma lastIdxOf_getElem? :
    ∀ (l : List String) (c : String), c ∈ l → l[lastIdxOf l c]? = some c
  | [], c, h => absurd h (List.not_mem_nil c)
  | x :: xs, c, h => by
    unfold lastIdxOf
    cases hxs : xs.contains c with
    | true =>
      have hm : c ∈ xs := by simpa using hxs
      simp only [hxs, if_true, List.getElem?_cons_succ]
      exact lastIdxOf_getElem? xs c hm
    | false =>
      have hnm : c ∉ xs := by simpa using hxs
      have hx : x = c := by
        rcases List.mem_cons.mp h with h1 | h2
        · exact h1.symm
        · exact absurd h2 hnm
      simp [hxs, hx]

lemma lastIdxOf_inj (l : List String) (a b : String) (ha : a ∈ l) (hb : b ∈ l)
    (he : lastIdxOf l a = lastIdxOf l b) : a = b := by
  have h1 := lastIdxOf_getElem? l a ha
  have h2 := lastIdxOf_getElem? l b hb
  rw [he] at h1
  exact Option.some.inj (h1.symm.trans h2)

/-- Claim C6: `get_products_by_codes` preserves input order.  A returned
row is exactly a stored row whose code is among the trimmed non-blank input
codes (unmatched codes are simply absent — the function is total, no
error), and the rows come back ordered by the input position of their code
(position of the last occurrence, so for duplicate-free inputs exactly the
input's relative order) regardless of physical storage order. -/
theorem c6_get_by_codes_order (codes : List String) (st : Store)
    (hnd : NodupCodes st) :
    (∀ r, r ∈ get_products_by_codes codes st ↔
      r ∈ st.products ∧ r.code ∈ (codes.map pyStrip).filter (fun c => c ≠ ""))
    ∧ (get_products_by_codes codes st).Pairwise (fun r1 r2 =>
        lastIdxOf ((codes.map pyStrip).filter (fun c => c ≠ "")) r1.code <
        lastIdxOf ((codes.map pyStrip).filter (fun c => c ≠ "")) r2.code) := by
  simp only [get_products_by_codes]
  split
  · next hemp =>
    have hcl : (codes.map pyStrip).filter (fun c => decide (c ≠ "")) = [] :=
      List.isEmpty_iff.mp hemp
    constructor
    · intro r
      rw [hcl]
      simp
    · exact List.Pairwise.nil
  · next hemp =>
    have hmem_iff : ∀ r, r ∈ List.insertionSort
        (codesOrderLe ((codes.map pyStrip).filter (fun c => decide (c ≠ ""))))
        (st.products.filter (fun r =>
          ((codes.map pyStrip).filter (fun c => decide (c ≠ ""))).contains r.code)) ↔
        r ∈ st.products ∧
          r.code ∈ (codes.map pyStrip).filter (fun c => decide (c ≠ "")) := by
      intro r
      rw [(List.perm_insertionSort _ _).mem_iff, List.mem_filter]
      simp
    refine ⟨hmem_iff, ?_⟩
    have hsorted := List.sorted_insertionSort
      (codesOrderLe ((codes.map pyStrip).filter (fun c => decide (c ≠ ""))))
      (st.products.filter (fun r =>
        ((codes.map pyStrip).filter (fun c => decide (c ≠ ""))).contains r.code))
    have hperm := List.perm_insertionSort
      (codesOrderLe ((codes.map pyStrip).filter (fun c => decide (c ≠ ""))))
      (st.products.filter (fun r =>
        ((codes.map pyStrip).filter (fun c => decide (c ≠ ""))).contains r.code))
    have hndf : ((st.products.filter (fun r =>
        ((codes.map pyStrip).filter (fun c => decide (c ≠ ""))).contains r.code)).map
          (fun r => r.code)).Nodup :=
      List.Nodup.sublist (List.Sublist.map _ (List.filter_sublist _)) hnd
    have hnds : ((List.insertionSort
        (codesOrderLe ((codes.map pyStrip).filter (fun c => decide (c ≠ ""))))
        (st.products.filter (fun r =>
          ((codes.map pyStrip).filter (fun c => decide (c ≠ ""))).contains r.code))).map
          (fun r => r.code)).Nodup := by
      rw [List.Perm.nodup_iff (hperm.map _)]
      exact hndf
    have hpne := List.pairwise_map.mp hnds
    refine List.Pairwise.imp_of_mem ?_ (List.Pairwise.and hsorted hpne)
    intro a b ha hb hab
    rcases hab with ⟨hle, hne⟩
    refine lt_of_le_of_ne hle ?_
    intro he
    exact hne (lastIdxOf_inj _ a.code b.code
      ((hmem_iff a).mp ha).2 ((hmem_iff b).mp hb).2 he)

/-- Witness for C6, the spec's example: with A, B, C stored in that
physical order, `get_products_by_codes ["B", "A", "C"]` returns the rows in
input order B, A, C; an unmatched code `"D"` is simply absent. -/
theorem c6_get_by_codes_order_witness :
    ((get_products_by_codes ["B", "A", "C"]
        (⟨[⟨"A", Option.none, "", "", "", "", "", "", Option.none, .null, .null, .null⟩,
           ⟨"B", Option.none, "", "", "", "", "", "", Option.none, .null, .null, .null⟩,
           ⟨"C", Option.none, "", "", "", "", "", "", Option.none, .null, .null, .null⟩],
          [], [], 1, []⟩ : Store)).Pairwise (fun r1 r2 =>
        lastIdxOf ((["B", "A", "C"].map pyStrip).filter (fun c => c ≠ "")) r1.code <
        lastIdxOf ((["B", "A", "C"].map pyStrip).filter (fun c => c ≠ "")) r2.code))
    ∧ (get_products_by_codes ["B", "A", "D"]
        (⟨[⟨"A", Option.none, "", "", "", "", "", "", Option.none, .null, .null, .null⟩,
           ⟨"B", Option.none, "", "", "", "", "", "", Option.none, .null, .null, .null⟩,
           ⟨"C", Option.none, "", "", "", "", "", "", Option.none, .null, .null, .null⟩],
          [], [], 1, []⟩ : Store)).map (fun r => r.code) = ["B", "A"] :=
  ⟨(c6_get_by_codes_order ["B", "A", "C"]
      ⟨[⟨"A", Option.none, "", "", "", "", "", "", Option.none, .null, .null, .null⟩,
        ⟨"B", Option.none, "", "", "", "", "", "", Option.none, .null, .null, .null⟩,
        ⟨"C", Option.none, "", "", "", "", "", "", Option.none, .null, .null, .null⟩],
       [], [], 1, []⟩ (by decide)).2,
   rfl⟩

lemma length_flatMap_eq_countP {α β : Type} (p : α → Bool) (f : α → List β) :
    ∀ l : List α, (∀ x ∈ l, (f x).length = if p x then 1 else 0) →
    (l.flatMap f).length = l.countP p
  | [], _ => by simp
  | a :: l, h => by
    rw [List.flatMap_cons, List.length_append, List.countP_cons,
      length_flatMap_eq_countP p f l (fun x hx => h x (List.mem_cons_of_mem a hx)),
      h a (List.mem_cons_self a l)]
    cases hp : p a <;> simp [hp] <;> omega

lemma length_flatMap_const_inner {α β γ : Type} (l2 : List β) (g : α → β → γ) :
    ∀ l : List α, (l.flatMap (fun m => l2.map (g m))).length = l.length * l2.length
  | [] => by simp
  | a :: l => by
    rw [List.flatMap_cons, List.length_append, List.length_map,
      length_flatMap_const_inner l2 g l, List.length_cons]
    ring

/-- Claim C7: the `read_consumed_items_since` contract.  `days < 1` fails
with the `ValueError`; for `days >= 1` the result is a permutation of the
MealItem→Meal→Product join restricted to meals created on/after
`now - days`, ordered by `created_at_utc` descending, and (under the
primary-key invariants) has exactly one row per (meal, item) pair whose
meal qualifies and whose product exists — so a product repeated across
meals appears once per consumption event. -/
theorem c7_read_consumed_since (now : Nat) (days : Int) (st : Store) :
    (days < 1 → read_consumed_items_since now days st = .error "days must be >= 1")
    ∧ (1 ≤ days → ∃ l, read_consumed_items_since now days st = .ok l
        ∧ l.Perm (consumedJoin st (sinceFilter now days))
        ∧ l.Pairwise consumedDescLe
        ∧ ((st.meals.map (fun m => m.id)).Nodup → NodupCodes st →
            l.length = st.meal_items.countP (fun mi =>
              (st.meals.any (fun m => m.id == mi.meal_id && sinceFilter now days m))
              && (st.products.any (fun p => p.code == mi.code))))) := by
  constructor
  · intro h
    unfold read_consumed_items_since
    rw [if_pos h]
  · intro h
    have hnl : ¬ days < 1 := by omega
    refine ⟨List.insertionSort consumedDescLe (consumedJoin st (sinceFilter now days)),
      ?_, List.perm_insertionSort _ _, List.sorted_insertionSort _ _, ?_⟩
    · unfold read_consumed_items_since
      rw [if_neg hnl]
    · intro hm hp
      rw [(List.perm_insertionSort _ _).length_eq]
      unfold consumedJoin
      apply length_flatMap_eq_countP
      intro mi _
      rw [length_flatMap_const_inner,
        length_filter_eq_ite _ _ (length_filter_le_one_of_nodup_key
          (fun m : Meal => m.id) _ mi.meal_id
          (fun x hx => by rw [Bool.and_eq_true, beq_iff_eq] at hx; exact hx.1)
          st.meals hm),
        length_filter_eq_ite _ _ (length_filter_le_one_of_nodup_key
          (fun p : Row => p.code) _ mi.code
          (fun x hx => by rw [beq_iff_eq] at hx; exact hx)
          st.products hp)]
      cases h1 : st.meals.any (fun m => m.id == mi.meal_id && sinceFilter now days m) <;>
        cases h2 : st.products.any (fun p => p.code == mi.code) <;> simp [h1, h2]

/-- Witness for C7: `days = 0` fails; `days = 6` at day 10 returns the join
for the qualifying meal (meal 1, created on day 10; meal 2 on day 3 is out
of range), the row for meal 1's item with a stored product. -/
theorem c7_read_consumed_since_witness :
    read_consumed_items_since 864000 0
      (⟨[⟨"a", Option.none, "", "", "", "", "", "", Option.none, .null, .null, .null⟩],
        [⟨1, 864000⟩, ⟨2, 259200⟩], [⟨1, "a"⟩, ⟨2, "a"⟩], 3, []⟩ : Store) =
      .error "days must be >= 1"
    ∧ ∃ l, read_consumed_items_since 864000 6
        (⟨[⟨"a", Option.none, "", "", "", "", "", "", Option.none, .null, .null, .null⟩],
          [⟨1, 864000⟩, ⟨2, 259200⟩], [⟨1, "a"⟩, ⟨2, "a"⟩], 3, []⟩ : Store) = .ok l
      ∧ l.Perm (consumedJoin
          (⟨[⟨"a", Option.none, "", "", "", "", "", "", Option.none, .null, .null, .null⟩],
            [⟨1, 864000⟩, ⟨2, 259200⟩], [⟨1, "a"⟩, ⟨2, "a"⟩], 3, []⟩ : Store)
          (sinceFilter 864000 6))
      ∧ l.Pairwise consumedDescLe
      ∧ (((⟨[⟨"a", Option.none, "", "", "", "", "", "", Option.none, .null, .null, .null⟩],
            [⟨1, 864000⟩, ⟨2, 259200⟩], [⟨1, "a"⟩, ⟨2, "a"⟩], 3, []⟩ : Store).meals.map
              (fun m => m.id)).Nodup →
          NodupCodes (⟨[⟨"a", Option.none, "", "", "", "", "", "", Option.none,
              .null, .null, .null⟩],
            [⟨1, 864000⟩, ⟨2, 259200⟩], [⟨1, "a"⟩, ⟨2, "a"⟩], 3, []⟩ : Store) →
          l.length = ((⟨[⟨"a", Option.none, "", "", "", "", "", "", Option.none,
              .null, .null, .null⟩],
            [⟨1, 864000⟩, ⟨2, 259200⟩], [⟨1, "a"⟩, ⟨2, "a"⟩], 3, []⟩ : Store).meal_items.countP
            (fun mi =>
              ((⟨[⟨"a", Option.none, "", "", "", "", "", "", Option.none,
                  .null, .null, .null⟩],
                [⟨1, 864000⟩, ⟨2, 259200⟩], [⟨1, "a"⟩, ⟨2, "a"⟩], 3, []⟩ : Store).meals.any
                (fun m => m.id == mi.meal_id && sinceFilter 864000 6 m))
              && ((⟨[⟨"a", Option.none, "", "", "", "", "", "", Option.none,
                  .null, .null, .null⟩],
                [⟨1, 864000⟩, ⟨2, 259200⟩], [⟨1, "a"⟩, ⟨2, "a"⟩], 3, []⟩ : Store).products.any
                (fun p => p.code == mi.code))))) :=
  ⟨(c7_read_consumed_since 864000 0
      ⟨[⟨"a", Option.none, "", "", "", "", "", "", Option.none, .null, .null, .null⟩],
       [⟨1, 864000⟩, ⟨2, 259200⟩], [⟨1, "a"⟩, ⟨2, "a"⟩], 3, []⟩).1 (by decide),
   (c7_read_consumed_since 864000 6
      ⟨[⟨"a", Option.none, "", "", "", "", "", "", Option.none, .null, .null, .null⟩],
       [⟨1, 864000⟩, ⟨2, 259200⟩], [⟨1, "a"⟩, ⟨2, "a"⟩], 3, []⟩).2 (by decide)⟩

/-- The spec's notion for C9, written from the spec's words: the query
occurs in the product name as a substring, compared case-insensitively
(ASCII case folding, which is what SQLite's `LIKE` performs). -/
abbrev specContainsCI (q name : String) : Prop :=
  (q.data.map asciiLower) <:+: (name.data.map asciiLower)

lemma likeMatch_wildfree_append_pct :
    ∀ (q : List Char), (∀ c ∈ q, c ≠ '%' ∧ c ≠ '_') →
    ∀ d : List Char, (likeMatch (q ++ ['%']) d = true ↔
      ∃ pre suf, d = pre ++ suf ∧ pre.map asciiLower = q.map asciiLower)
  | [], _, d => by
    simp only [List.nil_append, List.map_nil]
    constructor
    · intro _
      exact ⟨[], d, rfl, rfl⟩
    · intro _
      simp only [likeMatch, if_true, List.any_eq_true]
      exact ⟨[], (List.mem_tails _ _).mpr List.nil_suffix, rfl⟩
  | a :: q, hq, d => by
    have ha := hq a (List.mem_cons_self a q)
    have hq' : ∀ c ∈ q, c ≠ '%' ∧ c ≠ '_' :=
      fun c hc => hq c (List.mem_cons_of_mem a hc)
    rw [List.cons_append]
    cases d with
    | nil =>
      simp only [likeMatch, if_neg ha.1, if_neg ha.2]
      constructor
      · intro h
        cases h
      · rintro ⟨pre, suf, he, hmap⟩
        rcases List.append_eq_nil.mp he.symm with ⟨rfl, -⟩
        cases hmap
    | cons c d' =>
      simp only [likeMatch, if_neg ha.1, if_neg ha.2, Bool.and_eq_true, beq_iff_eq]
      rw [likeMatch_wildfree_append_pct q hq' d']
      constructor
      · rintro ⟨hac, pre, suf, rfl, hmap⟩
        exact ⟨c :: pre, suf, rfl, by simp [hac, hmap]⟩
      · rintro ⟨pre, suf, he, hmap⟩
        cases pre with
        | nil => cases hmap
        | cons p0 pre' =>
          rw [List.cons_append] at he
          injection he with he1 he2
          injection hmap with hm1 hm2
          subst he1
          exact ⟨hm1.symm, pre', suf, he2, hm2⟩

lemma likeMatch_pct_iff (q : List Char) (hq : ∀ c ∈ q, c ≠ '%' ∧ c ≠ '_')
    (cs : List Char) :
    likeMatch ('%' :: (q ++ ['%'])) cs = true ↔
      ∃ pre mid suf, cs = pre ++ (mid ++ suf)
        ∧ mid.map asciiLower = q.map asciiLower := by
  simp only [likeMatch, if_true, List.any_eq_true]
  constructor
  · rintro ⟨d, hd, hlm⟩
    rcases (List.mem_tails _ _).mp hd with ⟨pre, hpre⟩
    rcases (likeMatch_wildfree_append_pct q hq d).mp hlm with ⟨mid, suf, rfl, hmap⟩
    exact ⟨pre, mid, suf, hpre.symm, hmap⟩
  · rintro ⟨pre, mid, suf, rfl, hmap⟩
    refine ⟨mid ++ suf, (List.mem_tails _ _).mpr ⟨pre, rfl⟩, ?_⟩
    exact (likeMatch_wildfree_append_pct q hq _).mpr ⟨mid, suf, rfl, hmap⟩

lemma likeMatch_iff_specContains (q : String)
    (hq : ∀ c ∈ q.data, c ≠ '%' ∧ c ≠ '_') (name : String) :
    (likeMatch ('%' :: (q.data ++ ['%'])) name.data = true ↔
      specContainsCI q name) := by
  rw [likeMatch_pct_iff q.data hq]
  constructor
  · rintro ⟨pre, mid, suf, he, hmap⟩
    refine ⟨pre.map asciiLower, suf.map asciiLower, ?_⟩
    rw [he]
    simp [hmap]
  · rintro ⟨s, t, he⟩
    have he' : name.data.map asciiLower = s ++ (q.data.map asciiLower ++ t) := by
      rw [← he]
      simp
    rcases List.map_eq_append_iff.mp he' with ⟨pre, rest, hsplit, -, hrest⟩
    rcases List.map_eq_append_iff.mp hrest with ⟨mid, suf, hsplit2, hmid, -⟩
    exact ⟨pre, mid, suf, by rw [hsplit, hsplit2], hmid⟩

/-- Counterexample to C9 as stated: SQLite `LIKE` treats `'_'` (and `'%'`)
in the query as wildcards, so the non-empty query `"a_"` matches the stored
product named `"ab"`, which does not contain `"a_"` as a substring in any
case folding — the result is not "exactly the products whose product_name
contains the query". -/
theorem c9_search_counterexample :
    (search_products_by_name "a_" 25
      (⟨[⟨"x", Option.none, "ab", "", "", "", "", "", Option.none, .null, .null, .null⟩],
        [], [], 1, []⟩ : Store)).map (fun r => r.code) = ["x"]
    ∧ ¬ specContainsCI "a_" "ab" :=
  ⟨rfl, by decide⟩

/-- Claim C9 (amended): `search_products_by_name` returns the empty result
for a blank query; for a non-empty query containing no `LIKE` wildcard
characters (`'%'`, `'_'`), it returns exactly the stored products whose
name contains the query as an (ASCII-)case-insensitive substring, ordered
by `last_modified_t` descending (SQL NULLs last) and capped at `limit`. -/
theorem c9_search_by_name (query : String) (limit : Nat) (st : Store)
    (hw : ∀ c ∈ (pyStrip query).data, c ≠ '%' ∧ c ≠ '_') :
    (pyStrip query = "" → search_products_by_name query limit st = [])
    ∧ (∀ r ∈ search_products_by_name query limit st,
        r ∈ st.products ∧ specContainsCI (pyStrip query) r.product_name)
    ∧ (search_products_by_name query limit st).Pairwise rowDescLe
    ∧ (pyStrip query ≠ "" →
        (search_products_by_name query limit st).length =
          min limit (st.products.countP (fun r =>
            decide (specContainsCI (pyStrip query) r.product_name))))
    ∧ (pyStrip query ≠ "" →
        st.products.countP (fun r =>
          decide (specContainsCI (pyStrip query) r.product_name)) ≤ limit →
        ∀ r ∈ st.products, specContainsCI (pyStrip query) r.product_name →
          r ∈ search_products_by_name query limit st) := by
  have hfc : ∀ r ∈ st.products,
      (likeMatch ('%' :: ((pyStrip query).data ++ ['%'])) r.product_name.data) =
      decide (specContainsCI (pyStrip query) r.product_name) := by
    intro r _
    by_cases hsp : specContainsCI (pyStrip query) r.product_name
    · simp [hsp, (likeMatch_iff_specContains (pyStrip query) hw r.product_name).mpr hsp]
    · cases hlm : likeMatch ('%' :: ((pyStrip query).data ++ ['%'])) r.product_name.data with
      | false => simp [hsp]
      | true =>
        exact absurd ((likeMatch_iff_specContains (pyStrip query) hw
          r.product_name).mp hlm) hsp
  simp only [search_products_by_name]
  split
  · next hemp =>
    refine ⟨fun _ => rfl, ?_, List.Pairwise.nil, ?_, ?_⟩
    · intro r hr
      cases hr
    · intro hne
      exact absurd hemp hne
    · intro hne
      exact absurd hemp hne
  · next hemp =>
    rw [List.filter_congr hfc]
    refine ⟨fun he => absurd he hemp, ?_, ?_, ?_, ?_⟩
    · intro r hr
      have hr2 : r ∈ List.insertionSort rowDescLe (st.products.filter (fun r =>
          decide (specContainsCI (pyStrip query) r.product_name))) :=
        (List.take_sublist _ _).subset hr
      have hr3 := (List.perm_insertionSort _ _).mem_iff.mp hr2
      rcases List.mem_filter.mp hr3 with ⟨h1, h2⟩
      exact ⟨h1, of_decide_eq_true h2⟩
    · exact List.Pairwise.sublist (List.take_sublist _ _)
        (List.sorted_insertionSort rowDescLe _)
    · intro _
      rw [List.length_take, (List.perm_insertionSort rowDescLe _).length_eq,
        List.countP_eq_length_filter]
    · intro _ hcount r hr hsp
      have hlen : (List.insertionSort rowDescLe (st.products.filter (fun r =>
          decide (specContainsCI (pyStrip query) r.product_name)))).length ≤ limit := by
        rw [(List.perm_insertionSort rowDescLe _).length_eq]
        rw [List.countP_eq_length_filter] at hcount
        exact hcount
      rw [List.take_of_length_le hlen]
      exact (List.perm_insertionSort _ _).mem_iff.mpr
        (List.mem_filter.mpr ⟨hr, decide_eq_true hsp⟩)

/-- Witness for the amended C9: the wildcard-free query `"Z"` matches the
product named `"zz"` case-insensitively and only that one; the result
length equals the capped match count. -/
theorem c9_search_by_name_witness :
    (search_products_by_name "Z" 25
        (⟨[⟨"x", Option.none, "ab", "", "", "", "", "", Option.none, .null, .null, .null⟩,
           ⟨"y", some 2, "zz", "", "", "", "", "", Option.none, .null, .null, .null⟩],
          [], [], 1, []⟩ : Store)).length =
      min 25 ((⟨[⟨"x", Option.none, "ab", "", "", "", "", "", Option.none,
            .null, .null, .null⟩,
           ⟨"y", some 2, "zz", "", "", "", "", "", Option.none, .null, .null, .null⟩],
          [], [], 1, []⟩ : Store).products.countP (fun r =>
        decide (specContainsCI (pyStrip "Z") r.product_name)))
    ∧ (search_products_by_name "Z" 25
        (⟨[⟨"x", Option.none, "ab", "", "", "", "", "", Option.none, .null, .null, .null⟩,
           ⟨"y", some 2, "zz", "", "", "", "", "", Option.none, .null, .null, .null⟩],
          [], [], 1, []⟩ : Store)).map (fun r => r.code) = ["y"] :=
  ⟨(c9_search_by_name "Z" 25
      ⟨[⟨"x", Option.none, "ab", "", "", "", "", "", Option.none, .null, .null, .null⟩,
        ⟨"y", some 2, "zz", "", "", "", "", "", Option.none, .null, .null, .null⟩],
       [], [], 1, []⟩ (by decide)).2.2.2.1 (by decide),
   rfl⟩

end OffCache
